import Mathlib

/-!
Shallow embedding of the `langgraph-chatbot` repository
(`src/backend.py` and `src/app.py`).

The repository persists conversations through a LangGraph `SqliteSaver`
checkpointer: every graph super-step appends a checkpoint recording the
full message list of one thread, and `get_state` returns the latest
checkpoint for a thread (or an empty state if the thread was never
written).  The durable store is therefore embedded as an append-only
list of checkpoints; the backend and frontend functions of the
repository are translated on top of it.
-/

set_option autoImplicit false

namespace LangGraphChatbot

/-- Message classes of `langchain_core.messages` as used by the source:
`HumanMessage` for user input (`app.py` line 146), `ai` for model
responses produced by `chat_node`, plus the other `BaseMessage`
subclasses that `load_conversation` line 86 distinguishes from
`HumanMessage`. -/
inductive MsgType where
  | human
  | ai
  | system
  | tool
  deriving DecidableEq, Repr

/-- A role-tagged message: a `BaseMessage` with its class and its
`content` field. -/
structure Message where
  type : MsgType
  content : String
  deriving DecidableEq, Repr

/-- One checkpoint written by the `SqliteSaver` checkpointer: the
`thread_id` it belongs to (`config['configurable']['thread_id']`,
`backend.py` line 68) and the full `messages` value of the `ChatState`
at that super-step (`backend.py` lines 28-30). -/
structure Checkpoint where
  thread_id : String
  messages : List Message
  deriving DecidableEq, Repr

/-- Modelled from the spec: the durable store underlying the
`SqliteSaver` checkpointer (the `langgraph.checkpoint.sqlite` library
is not part of this repository).  Per the spec's store boundary it is
a key-ordered log of checkpoints; each write appends one checkpoint. -/
abbrev StoreDB : Type := List Checkpoint

/-- Modelled from the spec: `chatbot.get_state(...)` for a thread
(`backend.py` line 83).  The checkpointer returns the state of the
latest checkpoint written for the thread, and an empty state (so an
empty `messages` list, via `state.values.get('messages', [])`) when the
thread was never written. -/
def getState (db : StoreDB) (tid : String) : List Message :=
  db.foldl (fun acc cp => if cp.thread_id = tid then cp.messages else acc) []

/-- Modelled from the spec: the store-level `append` of one message to
one conversation.  A graph super-step writes a new checkpoint whose
`messages` value is the previous state of the thread extended with the
new message at the end (the `add_messages` reducer of `ChatState`,
`backend.py` line 30). -/
def appendMessage (db : StoreDB) (tid : String) (m : Message) : StoreDB :=
  db ++ [⟨tid, getState db tid ++ [m]⟩]

/-- A sequence of appends to a single thread. -/
def appendAll (db : StoreDB) (tid : String) (msgs : List Message) : StoreDB :=
  msgs.foldl (fun d m => appendMessage d tid m) db

/-- A mixed sequence of appends, each directed at its own thread. -/
def appendPairs (db : StoreDB) (pairs : List (String × Message)) : StoreDB :=
  pairs.foldl (fun d p => appendMessage d p.1 p.2) db

/-- An underlying storage failure (sqlite I/O error, corruption,
lock contention), carried by the exception the library raises. -/
structure StoreError where
  msg : String
  deriving DecidableEq, Repr

/-- Outcome of iterating `checkpointer.list(None)` (`backend.py`
line 67): either the iteration yields all checkpoints, or the storage
medium raises after yielding some of them. -/
inductive ListOutcome where
  | ok (cps : List Checkpoint)
  | failed (yielded : List Checkpoint) (e : StoreError)
  deriving DecidableEq, Repr

/-- Outcome of `chatbot.get_state` for one thread (`backend.py`
line 83): the thread's message list, or a storage failure. -/
inductive ReadOutcome where
  | ok (msgs : List Message)
  | failed (e : StoreError)
  deriving DecidableEq, Repr

/-- `all_threads.add(...)` on a Python `set`, embedded as
insertion-order deduplication. -/
def addThread (acc : List String) (tid : String) : List String :=
  if tid ∈ acc then acc else acc ++ [tid]

/-- `retrieve_all_threads` (`backend.py` lines 59-71): iterate the
checkpointer's listing, collecting each checkpoint's `thread_id` into a
set; on an exception the error is printed and the threads accumulated
so far are returned. -/
def retrieve_all_threads : ListOutcome → List String
  | .ok cps => cps.foldl (fun acc cp => addThread acc cp.thread_id) []
  | .failed ys _ => ys.foldl (fun acc cp => addThread acc cp.thread_id) []

/-- `get_conversation_history` (`backend.py` lines 73-87): return the
thread's messages from `get_state`; on an exception the error is
printed and `[]` is returned. -/
def get_conversation_history : ReadOutcome → List Message
  | .ok ms => ms
  | .failed _ => []

/-- A healthy read of the store for one thread: `get_state` succeeds
and returns the latest checkpointed messages. -/
def readThread (db : StoreDB) (tid : String) : ReadOutcome :=
  .ok (getState db tid)

theorem getState_append_one (db : StoreDB) (cp : Checkpoint) (tid : String) :
    getState (db ++ [cp]) tid = if cp.thread_id = tid then cp.messages else getState db tid := by
  simp [getState, List.foldl_append]

theorem getState_appendMessage_self (db : StoreDB) (tid : String) (m : Message) :
    getState (appendMessage db tid m) tid = getState db tid ++ [m] := by
  simp [appendMessage, getState_append_one]

theorem getState_appendMessage_other (db : StoreDB) (tid tid' : String) (m : Message)
    (h : tid' ≠ tid) : getState (appendMessage db tid' m) tid = getState db tid := by
  simp [appendMessage, getState_append_one, h]

theorem getState_appendAll (msgs : List Message) (db : StoreDB) (tid : String) :
    getState (appendAll db tid msgs) tid = getState db tid ++ msgs := by
  induction msgs generalizing db with
  | nil => simp [appendAll]
  | cons m ms ih =>
      show getState (appendAll (appendMessage db tid m) tid ms) tid = _
      rw [ih, getState_appendMessage_self, List.append_assoc]
      rfl

theorem getState_eq_nil_of_not_mem (db : StoreDB) (tid : String)
    (h : ∀ cp ∈ db, cp.thread_id ≠ tid) : getState db tid = [] := by
  have aux : ∀ (l : List Checkpoint) (acc : List Message), (∀ cp ∈ l, cp.thread_id ≠ tid) →
      l.foldl (fun acc cp => if cp.thread_id = tid then cp.messages else acc) acc = acc := by
    intro l
    induction l with
    | nil => intro acc _; rfl
    | cons cp l ih =>
        intro acc hl
        have hcp : cp.thread_id ≠ tid := hl cp (List.mem_cons_self cp l)
        show l.foldl _ (if cp.thread_id = tid then cp.messages else acc) = acc
        rw [if_neg hcp]
        exact ih acc (fun c hc => hl c (List.mem_cons_of_mem cp hc))
  exact aux db [] h

/-! ## Frontend (`src/app.py`) -/

/-- Lower-case hexadecimal digit character for a nibble, as produced by
Python's `'%032x' % int` formatting. -/
def hexChar (d : Nat) : Char :=
  if d < 10 then Char.ofNat (48 + d) else Char.ofNat (87 + d)

/-- Numeric value of a lower-case hexadecimal digit character. -/
def hexVal (c : Char) : Nat :=
  if 97 ≤ c.toNat then c.toNat - 87 else c.toNat - 48

/-- `k`-nibble zero-padded hexadecimal rendering of `n`, most
significant nibble first (`'%032x' % int` with `k = 32`). -/
def toHex : Nat → Nat → List Char
  | _, 0 => []
  | n, k + 1 => toHex (n / 16) k ++ [hexChar (n % 16)]

/-- Read a hexadecimal digit string back into a number. -/
def fromHex (cs : List Char) : Nat :=
  cs.foldl (fun a c => a * 16 + hexVal c) 0

/-- Python `uuid.UUID(bytes=os.urandom(16), version=4)`: the 128
random bits with the RFC 4122 variant bits and the version-4 bits
forced (`int &= ~(0xc000 << 48); int |= 0x8000 << 48;
int &= ~(0xf000 << 64); int |= 0x4000 << 64`). -/
def uuid4val (r : Nat) : Nat :=
  (((r &&& (2 ^ 128 - 1 - (0xc000 <<< 48))) ||| (0x8000 <<< 48))
      &&& (2 ^ 128 - 1 - (0xf000 <<< 64))) ||| (0x4000 <<< 64)

/-- `str(uuid)`: the 32 hex digits split 8-4-4-4-12 by hyphens. -/
def uuidFormat (cs : List Char) : List Char :=
  cs.take 8 ++ ['-'] ++ (cs.drop 8).take 4 ++ ['-'] ++ (cs.drop 12).take 4
    ++ ['-'] ++ (cs.drop 16).take 4 ++ ['-'] ++ cs.drop 20

/-- `generate_thread_id` (`app.py` lines 53-55): `str(uuid.uuid4())`,
as a function of the 128 random bits `os.urandom(16)` draws. -/
def generate_thread_id (r : Fin (2 ^ 128)) : String :=
  ⟨uuidFormat (toHex (uuid4val r.val) 32)⟩

/-- Remove the hyphens of a formatted UUID string. -/
def stripDashes (cs : List Char) : List Char :=
  cs.filter (fun c => !(c == '-'))

/-- Decode a thread-id string back to its 128-bit value. -/
def decodeThreadId (s : String) : Nat :=
  fromHex (stripDashes s.data)

theorem hexVal_hexChar : ∀ d < 16, hexVal (hexChar d) = d := by decide

theorem hexChar_ne_dash : ∀ d < 16, (hexChar d == '-') = false := by decide

theorem fromHex_append_singleton (cs : List Char) (c : Char) :
    fromHex (cs ++ [c]) = fromHex cs * 16 + hexVal c := by
  simp [fromHex, List.foldl_append]

theorem fromHex_toHex : ∀ (k n : Nat), n < 16 ^ k → fromHex (toHex n k) = n := by
  intro k
  induction k with
  | zero =>
      intro n hn
      have : n = 0 := Nat.lt_one_iff.mp (by simpa using hn)
      subst this
      rfl
  | succ k ih =>
      intro n hn
      have hdiv : n / 16 < 16 ^ k := by
        have h16 : n < 16 ^ k * 16 := by
          have := hn
          rwa [pow_succ] at this
        exact Nat.div_lt_of_lt_mul (by simpa [Nat.mul_comm] using h16)
      have hmod : n % 16 < 16 := Nat.mod_lt _ (by norm_num)
      show fromHex (toHex (n / 16) k ++ [hexChar (n % 16)]) = n
      rw [fromHex_append_singleton, ih (n / 16) hdiv, hexVal_hexChar _ hmod]
      omega

theorem mem_toHex_ne_dash : ∀ (k n : Nat), ∀ c ∈ toHex n k, (c == '-') = false := by
  intro k
  induction k with
  | zero => intro n c hc; simp [toHex] at hc
  | succ k ih =>
      intro n c hc
      rcases List.mem_append.mp hc with h | h
      · exact ih (n / 16) c h
      · have : c = hexChar (n % 16) := by simpa using h
        subst this
        exact hexChar_ne_dash _ (Nat.mod_lt _ (by norm_num))

theorem stripDashes_append (xs ys : List Char) :
    stripDashes (xs ++ ys) = stripDashes xs ++ stripDashes ys := by
  simp [stripDashes]

theorem stripDashes_eq_self (cs : List Char) (h : ∀ c ∈ cs, (c == '-') = false) :
    stripDashes cs = cs := by
  apply List.filter_eq_self.mpr
  intro c hc
  simp [h c hc]

theorem stripDashes_cons_dash (l : List Char) : stripDashes ('-' :: l) = stripDashes l := by
  simp [stripDashes]

theorem stripDashes_uuidFormat (cs : List Char) (h : ∀ c ∈ cs, (c == '-') = false) :
    stripDashes (uuidFormat cs) = cs := by
  have hsub : ∀ (l : List Char), l ⊆ cs → stripDashes l = l := fun l hl =>
    stripDashes_eq_self l (fun c hc => h c (hl hc))
  have h1 : stripDashes (cs.take 8) = cs.take 8 := hsub _ (List.take_subset 8 cs)
  have h2 : stripDashes ((cs.drop 8).take 4) = (cs.drop 8).take 4 :=
    hsub _ (fun c hc => List.drop_subset 8 cs (List.take_subset 4 _ hc))
  have h3 : stripDashes ((cs.drop 12).take 4) = (cs.drop 12).take 4 :=
    hsub _ (fun c hc => List.drop_subset 12 cs (List.take_subset 4 _ hc))
  have h4 : stripDashes ((cs.drop 16).take 4) = (cs.drop 16).take 4 :=
    hsub _ (fun c hc => List.drop_subset 16 cs (List.take_subset 4 _ hc))
  have h5 : stripDashes (cs.drop 20) = cs.drop 20 := hsub _ (List.drop_subset 20 cs)
  have hmain : stripDashes (uuidFormat cs)
      = cs.take 8 ++ ((cs.drop 8).take 4 ++ ((cs.drop 12).take 4
          ++ ((cs.drop 16).take 4 ++ cs.drop 20))) := by
    simp only [uuidFormat, List.append_assoc, List.singleton_append, stripDashes_append,
      stripDashes_cons_dash, h1, h2, h3, h4, h5]
  rw [hmain]
  have e20 : (cs.drop 16).take 4 ++ cs.drop 20 = cs.drop 16 := by
    have e := List.drop_take_append_drop cs 16 4
    norm_num at e
    exact e
  have e16 : (cs.drop 12).take 4 ++ cs.drop 16 = cs.drop 12 := by
    have e := List.drop_take_append_drop cs 12 4
    norm_num at e
    exact e
  have e12 : (cs.drop 8).take 4 ++ cs.drop 12 = cs.drop 8 := by
    have e := List.drop_take_append_drop cs 8 4
    norm_num at e
    exact e
  rw [e20, e16, e12, List.take_append_drop 8 cs]

theorem uuid4val_lt (r : Nat) : uuid4val r < 2 ^ 128 := by
  unfold uuid4val
  apply Nat.or_lt_two_pow
  · apply Nat.and_lt_two_pow
    norm_num [Nat.shiftLeft_eq]
  · norm_num [Nat.shiftLeft_eq]

theorem decodeThreadId_generate (r : Fin (2 ^ 128)) :
    decodeThreadId (generate_thread_id r) = uuid4val r.val := by
  show fromHex (stripDashes (uuidFormat (toHex (uuid4val r.val) 32))) = uuid4val r.val
  rw [stripDashes_uuidFormat _ (mem_toHex_ne_dash 32 (uuid4val r.val))]
  exact fromHex_toHex 32 (uuid4val r.val)
    (by
      have : (16 : Nat) ^ 32 = 2 ^ 128 := by norm_num
      rw [this]
      exact uuid4val_lt r.val)

/-- One entry of `st.session_state.message_history`: a dict with a
`role` string and a `content` string (`app.py` lines 87, 130, 157). -/
structure UIMessage where
  role : String
  content : String
  deriving DecidableEq, Repr

/-- The Streamlit session state once initialized: `message_history`,
`thread_id` and `chat_threads` (`app.py` lines 57-68). -/
structure Session where
  message_history : List UIMessage
  thread_id : String
  chat_threads : List String
  deriving DecidableEq, Repr

/-- The Streamlit session state before `initialize_session_state`
runs: each key may be absent (`none`). -/
structure RawSession where
  message_history : Option (List UIMessage)
  thread_id : Option String
  chat_threads : Option (List String)
  deriving DecidableEq, Repr

/-- `initialize_session_state` (`app.py` lines 57-68): fill in each
absent key; when `chat_threads` is absent, it is filled with
`retrieve_all_threads()` and the current `thread_id` is appended if
missing.  `fresh` stands for the `generate_thread_id()` value drawn
when `thread_id` is absent; `listing` is the checkpointer's listing
outcome. -/
def initialize_session_state (raw : RawSession) (fresh : String) (listing : ListOutcome) :
    Session :=
  let mh := raw.message_history.getD []
  let tid := raw.thread_id.getD fresh
  let cts :=
    match raw.chat_threads with
    | some l => l
    | none =>
        let l := retrieve_all_threads listing
        if tid ∈ l then l else l ++ [tid]
  ⟨mh, tid, cts⟩

/-- `reset_chat` (`app.py` lines 70-77): switch to a freshly generated
thread id, append it to `chat_threads` if missing, and clear the
in-memory history.  Touches only the session state, never the store. -/
def reset_chat (s : Session) (fresh : String) : Session :=
  { s with
    thread_id := fresh
    chat_threads := if fresh ∈ s.chat_threads then s.chat_threads else s.chat_threads ++ [fresh]
    message_history := [] }

/-- The role `load_conversation` line 86 assigns to a stored message:
`"user"` exactly for a `HumanMessage`, `"assistant"` for every other
message class. -/
def roleOf (m : Message) : String :=
  match m.type with
  | .human => "user"
  | _ => "assistant"

/-- `load_conversation` (`app.py` lines 79-90): set the current
`thread_id`, fetch the history through `get_conversation_history`, and
rebuild `message_history` from it with `roleOf`. -/
def load_conversation (s : Session) (tid : String) (read : ReadOutcome) : Session :=
  { s with
    thread_id := tid
    message_history := (get_conversation_history read).map (fun m => ⟨roleOf m, m.content⟩) }

/-- A provider-call failure (`llm.invoke` in `chat_node`,
`backend.py` line 42, raising during the stream). -/
structure ProviderError where
  msg : String
  deriving DecidableEq, Repr

/-- Whether one durable checkpoint write of the `SqliteSaver`
succeeds or raises. -/
inductive WriteOutcome where
  | ok
  | fail (e : StoreError)
  deriving DecidableEq, Repr

/-- An error escaping `handle_user_input` (no `try` block catches it):
a storage failure from a checkpoint write or a provider failure. -/
inductive TurnError where
  | store (e : StoreError)
  | provider (e : ProviderError)
  deriving DecidableEq, Repr

/-- `handle_user_input` (`app.py` lines 122-160) together with the
graph turn it triggers (`chatbot.stream` running `chat_node`,
`backend.py` lines 32-43):

1. the user message is appended to the in-memory `message_history`
   (line 130);
2. the graph writes the input checkpoint for the thread — the previous
   state extended with the `HumanMessage` via `add_messages`
   (`w1` is that write's outcome; on failure the exception escapes
   with no rollback of step 1);
3. `chat_node` calls the provider on the checkpointed messages; on
   failure the exception escapes and the partial `full_response` is
   discarded (the line-157 append is never reached);
4. the graph writes the checkpoint extended with the response (`w2`);
5. the assembled response is appended to the in-memory history
   (line 157) and returned. -/
def handle_user_input (s : Session) (db : StoreDB) (input : String)
    (w1 w2 : WriteOutcome) (provider : List Message → Except ProviderError Message) :
    Session × StoreDB × Except TurnError String :=
  let s1 : Session := { s with message_history := s.message_history ++ [⟨"user", input⟩] }
  match w1 with
  | .fail e => (s1, db, .error (.store e))
  | .ok =>
      let withUser := getState db s.thread_id ++ [⟨.human, input⟩]
      let db1 : StoreDB := db ++ [⟨s.thread_id, withUser⟩]
      match provider withUser with
      | .error e => (s1, db1, .error (.provider e))
      | .ok resp =>
          match w2 with
          | .fail e => (s1, db1, .error (.store e))
          | .ok =>
              ({ s1 with message_history := s1.message_history ++ [⟨"assistant", resp.content⟩] },
               db1 ++ [⟨s.thread_id, withUser ++ [resp]⟩],
               .ok resp.content)

/-- The full application state: the Streamlit session plus the durable
store.  `reset_chat` only touches the session. -/
structure AppState where
  session : Session
  db : StoreDB
  deriving DecidableEq, Repr

/-- `reset_chat` lifted to the full application state: the durable
store is not written (`app.py` lines 70-77 only mutate
`st.session_state`). -/
def reset_chat_app (a : AppState) (fresh : String) : AppState :=
  { a with session := reset_chat a.session fresh }

/-! ## Supporting lemmas -/

theorem mem_addThread (acc : List String) (t x : String) :
    x ∈ addThread acc t ↔ x ∈ acc ∨ x = t := by
  by_cases h : t ∈ acc
  · simp only [addThread, if_pos h]
    exact ⟨Or.inl, fun hx => hx.elim id (fun e => e ▸ h)⟩
  · simp [addThread, if_neg h]

theorem nodup_addThread (acc : List String) (t : String) (h : acc.Nodup) :
    (addThread acc t).Nodup := by
  by_cases hm : t ∈ acc
  · simpa [addThread, if_pos hm] using h
  · simp only [addThread, if_neg hm]
    rw [List.nodup_append]
    refine ⟨h, List.nodup_singleton t, fun x hx hxt => hm ?_⟩
    have hxe : x = t := by simpa using hxt
    exact hxe ▸ hx

theorem mem_foldl_addThread (l : List Checkpoint) :
    ∀ (acc : List String) (x : String),
      x ∈ l.foldl (fun a c => addThread a c.thread_id) acc
        ↔ x ∈ acc ∨ x ∈ l.map (fun c => c.thread_id) := by
  induction l with
  | nil => simp
  | cons c l ih =>
      intro acc x
      show x ∈ l.foldl _ (addThread acc c.thread_id) ↔ _
      rw [ih, mem_addThread]
      simp only [List.map_cons, List.mem_cons]
      tauto

theorem nodup_foldl_addThread (l : List Checkpoint) :
    ∀ acc : List String, acc.Nodup →
      (l.foldl (fun a c => addThread a c.thread_id) acc).Nodup := by
  induction l with
  | nil => intro acc h; exact h
  | cons c l ih =>
      intro acc h
      exact ih (addThread acc c.thread_id) (nodup_addThread acc c.thread_id h)

theorem map_tid_appendPairs (pairs : List (String × Message)) :
    ∀ db : StoreDB,
      (appendPairs db pairs).map (fun c => c.thread_id)
        = db.map (fun c => c.thread_id) ++ pairs.map Prod.fst := by
  induction pairs with
  | nil => intro db; simp [appendPairs]
  | cons p ps ih =>
      intro db
      show (appendPairs (appendMessage db p.1 p.2) ps).map _ = _
      rw [ih]
      simp [appendMessage]

theorem messages_ne_nil_appendPairs (pairs : List (String × Message)) :
    ∀ db : StoreDB, (∀ cp ∈ db, cp.messages ≠ []) →
      ∀ cp ∈ appendPairs db pairs, cp.messages ≠ [] := by
  induction pairs with
  | nil => intro db h; exact h
  | cons p ps ih =>
      intro db h
      apply ih (appendMessage db p.1 p.2)
      intro cp hcp
      rcases List.mem_append.mp hcp with hin | hnew
      · exact h cp hin
      · have : cp = ⟨p.1, getState db p.1 ++ [p.2]⟩ := by simpa using hnew
        subst this
        simp

theorem getState_ne_nil_of_mem_map (db : StoreDB) (tid : String) :
    tid ∈ db.map (fun c => c.thread_id) → (∀ cp ∈ db, cp.messages ≠ []) →
      getState db tid ≠ [] := by
  induction db using List.reverseRecOn with
  | nil => simp
  | append_singleton ds cp ih =>
      intro hmem hne
      rw [getState_append_one]
      by_cases h : cp.thread_id = tid
      · rw [if_pos h]
        exact hne cp (by simp)
      · rw [if_neg h]
        apply ih
        · have hmem2 : (∃ a ∈ ds, a.thread_id = tid) ∨ tid = cp.thread_id := by
            simpa using hmem
          rcases hmem2 with hds | hcp
          · simpa using hds
          · exact absurd hcp.symm h
        · exact fun c hc => hne c (List.mem_append.mpr (Or.inl hc))

/-! ## Claims -/

/-- C1: For every conversation identifier and every sequence of
successful appends to it, a fresh read of that identifier (through
`get_conversation_history`) returns exactly the appended messages in
append order — no gaps, no reordering, no duplication. -/
theorem append_order_invariant (db : StoreDB) (tid : String) (msgs : List Message)
    (h : getState db tid = []) :
    get_conversation_history (readThread (appendAll db tid msgs) tid) = msgs := by
  show get_conversation_history (.ok (getState (appendAll db tid msgs) tid)) = msgs
  rw [getState_appendAll, h]
  rfl

theorem append_order_invariant_witness :
    getState ([] : StoreDB) "t" = ([] : List Message) ∧
    get_conversation_history
        (readThread (appendAll [] "t" [⟨.human, "hey"⟩, ⟨.ai, "yo"⟩]) "t")
      = [⟨.human, "hey"⟩, ⟨.ai, "yo"⟩] :=
  ⟨rfl, append_order_invariant [] "t" [⟨.human, "hey"⟩, ⟨.ai, "yo"⟩] rfl⟩

/-- C2: Reading the history of an identifier that was never appended to
succeeds (the read outcome is `ok`, never any error such as a
not-found error) and yields the empty sequence. -/
theorem unknown_id_reads_empty (db : StoreDB) (tid : String)
    (h : ∀ cp ∈ db, cp.thread_id ≠ tid) :
    readThread db tid = .ok [] ∧
    get_conversation_history (readThread db tid) = [] := by
  have hnil := getState_eq_nil_of_not_mem db tid h
  refine ⟨?_, ?_⟩
  · show ReadOutcome.ok (getState db tid) = ReadOutcome.ok []
    rw [hnil]
  · show get_conversation_history (.ok (getState db tid)) = []
    rw [hnil]
    rfl

theorem unknown_id_reads_empty_witness :
    readThread [⟨"other", [⟨.human, "x"⟩]⟩] "t" = .ok [] :=
  (unknown_id_reads_empty [⟨"other", [⟨.human, "x"⟩]⟩] "t" (by decide)).1

/-- C3: Evidence for the code bug: `get_conversation_history` and
`retrieve_all_threads` catch storage failures and return an empty
result, so a failed read/list is indistinguishable from an empty
store — the caller never sees a `StoreError`. -/
theorem read_list_failure_mapped_to_empty :
    get_conversation_history (.failed ⟨"sqlite failure"⟩)
      = get_conversation_history (.ok []) ∧
    retrieve_all_threads (.failed [] ⟨"sqlite failure"⟩)
      = retrieve_all_threads (.ok []) ∧
    get_conversation_history (.failed ⟨"sqlite failure"⟩) = [] ∧
    retrieve_all_threads (.failed [] ⟨"sqlite failure"⟩) = [] :=
  ⟨rfl, rfl, rfl, rfl⟩

/-- C4: Starting a new conversation, appending the user message
"Hello" and the assistant message "Hi there", then reloading the
conversation by its identifier yields exactly
`[{user, "Hello"}, {assistant, "Hi there"}]`. -/
theorem round_trip_hello_hi_there :
    (load_conversation
        (handle_user_input (reset_chat ⟨[⟨"user", "old"⟩], "old", ["old"]⟩ "t") [] "Hello"
            .ok .ok (fun _ => .ok ⟨.ai, "Hi there"⟩)).1
        "t"
        (readThread
          (handle_user_input (reset_chat ⟨[⟨"user", "old"⟩], "old", ["old"]⟩ "t") [] "Hello"
              .ok .ok (fun _ => .ok ⟨.ai, "Hi there"⟩)).2.1
          "t")).message_history
      = [⟨"user", "Hello"⟩, ⟨"assistant", "Hi there"⟩] := by
  rfl

/-- C5: After any sequence of appends, listing the store's thread
identifiers returns each identifier that was appended to exactly once
(no duplicates), no other identifier, and every returned identifier
has at least one stored message. -/
theorem list_threads_after_appends (pairs : List (String × Message)) :
    (retrieve_all_threads (.ok (appendPairs [] pairs))).Nodup ∧
    (∀ t, t ∈ retrieve_all_threads (.ok (appendPairs [] pairs))
      ↔ t ∈ pairs.map Prod.fst) ∧
    (∀ t ∈ retrieve_all_threads (.ok (appendPairs [] pairs)),
      getState (appendPairs [] pairs) t ≠ []) := by
  have hmap := map_tid_appendPairs pairs []
  simp only [List.map_nil, List.nil_append] at hmap
  refine ⟨?_, ?_, ?_⟩
  · exact nodup_foldl_addThread _ [] List.nodup_nil
  · intro t
    show t ∈ (appendPairs [] pairs).foldl (fun a c => addThread a c.thread_id) [] ↔ _
    rw [mem_foldl_addThread, hmap]
    simp
  · intro t ht
    have htm : t ∈ (appendPairs [] pairs).map (fun c => c.thread_id) := by
      have := (mem_foldl_addThread (appendPairs [] pairs) [] t).mp ht
      simpa using this
    exact getState_ne_nil_of_mem_map _ t htm
      (messages_ne_nil_appendPairs pairs [] (by simp))

theorem list_threads_after_appends_witness :
    "a" ∈ retrieve_all_threads
      (.ok (appendPairs [] [("a", ⟨.human, "x"⟩), ("a", ⟨.ai, "y"⟩), ("b", ⟨.human, "z"⟩)])) :=
  ((list_threads_after_appends
      [("a", ⟨.human, "x"⟩), ("a", ⟨.ai, "y"⟩), ("b", ⟨.human, "z"⟩)]).2.1 "a").mpr
    (by decide)

/-- C6: When the provider call fails during a turn, the failure is
surfaced, the partial assistant content is not persisted anywhere, and
the store's history for the conversation gains exactly the user
message persisted at the start of the turn; the in-memory history
gains only the user entry. -/
theorem provider_failure_preserves_history (s : Session) (db : StoreDB) (input : String)
    (provider : List Message → Except ProviderError Message) (e : ProviderError)
    (h : provider (getState db s.thread_id ++ [⟨.human, input⟩]) = .error e) :
    (handle_user_input s db input .ok .ok provider).2.2 = .error (.provider e) ∧
    getState (handle_user_input s db input .ok .ok provider).2.1 s.thread_id
      = getState db s.thread_id ++ [⟨.human, input⟩] ∧
    (handle_user_input s db input .ok .ok provider).1.message_history
      = s.message_history ++ [⟨"user", input⟩] := by
  have hred : handle_user_input s db input .ok .ok provider
      = ({ s with message_history := s.message_history ++ [⟨"user", input⟩] },
         db ++ [⟨s.thread_id, getState db s.thread_id ++ [⟨.human, input⟩]⟩],
         .error (.provider e)) := by
    simp only [handle_user_input]
    rw [h]
  rw [hred]
  refine ⟨rfl, ?_, rfl⟩
  rw [getState_append_one]
  simp

theorem provider_failure_preserves_history_witness :
    (handle_user_input ⟨[], "t", ["t"]⟩ [] "Hello" .ok .ok
        (fun _ => .error ⟨"timeout"⟩)).2.2
      = .error (.provider ⟨"timeout"⟩) :=
  (provider_failure_preserves_history ⟨[], "t", ["t"]⟩ [] "Hello"
      (fun _ => .error ⟨"timeout"⟩) ⟨"timeout"⟩ rfl).1

/-- C7 counterexample: when the durable append of the user message
fails, `handle_user_input` surfaces the storage failure and leaves the
store empty, yet the in-memory history still holds the user entry —
the in-memory append is not rolled back, so the in-memory sequence
diverges from the durable sequence. -/
theorem append_rollback_counterexample :
    (handle_user_input ⟨[], "t", ["t"]⟩ [] "Hello" (.fail ⟨"disk full"⟩) .ok
        (fun _ => .ok ⟨.ai, "Hi"⟩)).2.2 = .error (.store ⟨"disk full"⟩) ∧
    (handle_user_input ⟨[], "t", ["t"]⟩ [] "Hello" (.fail ⟨"disk full"⟩) .ok
        (fun _ => .ok ⟨.ai, "Hi"⟩)).2.1 = ([] : StoreDB) ∧
    (handle_user_input ⟨[], "t", ["t"]⟩ [] "Hello" (.fail ⟨"disk full"⟩) .ok
        (fun _ => .ok ⟨.ai, "Hi"⟩)).1.message_history = [⟨"user", "Hello"⟩] ∧
    (handle_user_input ⟨[], "t", ["t"]⟩ [] "Hello" (.fail ⟨"disk full"⟩) .ok
        (fun _ => .ok ⟨.ai, "Hi"⟩)).1.message_history ≠ [] :=
  ⟨rfl, rfl, rfl, by decide⟩

/-- C7 amended: the user message is appended to the in-memory sequence
before the durable persist; if the durable append fails, the failure
is surfaced and the store is unchanged, but the in-memory append is
not rolled back (the user entry remains); after a fully successful
turn the in-memory and durable sequences agree. -/
theorem append_no_rollback_amended (s : Session) (db : StoreDB) (input : String)
    (e : StoreError) (w2 : WriteOutcome)
    (provider : List Message → Except ProviderError Message) (resp : Message)
    (hp : provider (getState db s.thread_id ++ [⟨.human, input⟩]) = .ok resp) :
    ((handle_user_input s db input (.fail e) w2 provider).2.2 = .error (.store e) ∧
      (handle_user_input s db input (.fail e) w2 provider).2.1 = db ∧
      (handle_user_input s db input (.fail e) w2 provider).1.message_history
        = s.message_history ++ [⟨"user", input⟩]) ∧
    ((handle_user_input s db input .ok .ok provider).1.message_history
        = s.message_history ++ [⟨"user", input⟩, ⟨"assistant", resp.content⟩] ∧
      getState (handle_user_input s db input .ok .ok provider).2.1 s.thread_id
        = getState db s.thread_id ++ [⟨.human, input⟩, resp]) := by
  refine ⟨⟨rfl, rfl, rfl⟩, ?_⟩
  have hred : handle_user_input s db input .ok .ok provider
      = ({ s with message_history := s.message_history
              ++ [⟨"user", input⟩] ++ [⟨"assistant", resp.content⟩] },
         db ++ [⟨s.thread_id, getState db s.thread_id ++ [⟨.human, input⟩]⟩]
            ++ [⟨s.thread_id, (getState db s.thread_id ++ [⟨.human, input⟩]) ++ [resp]⟩],
         .ok resp.content) := by
    simp only [handle_user_input]
    rw [hp]
  rw [hred]
  constructor
  · simp
  · rw [getState_append_one]
    simp

theorem append_no_rollback_amended_witness :
    (handle_user_input ⟨[], "t", ["t"]⟩ [] "Hello" (.fail ⟨"locked"⟩) .ok
        (fun _ => .ok ⟨.ai, "Hi"⟩)).2.1 = ([] : StoreDB) :=
  (append_no_rollback_amended ⟨[], "t", ["t"]⟩ [] "Hello" ⟨"locked"⟩ .ok
      (fun _ => .ok ⟨.ai, "Hi"⟩) ⟨.ai, "Hi"⟩ rfl).1.2.1

/-- C8: Every chat reset allocates an identifier generated from 128
random bits (the identifier string faithfully encodes the masked
128-bit UUID value, so distinct values never collide), installs an
empty in-memory message sequence, and performs no write to the durable
store. -/
theorem start_new_fresh_empty_no_write :
    (∀ (a : AppState) (r : Fin (2 ^ 128)),
        (reset_chat_app a (generate_thread_id r)).db = a.db ∧
        (reset_chat_app a (generate_thread_id r)).session.message_history = [] ∧
        (reset_chat_app a (generate_thread_id r)).session.thread_id
          = generate_thread_id r) ∧
    (∀ r₁ r₂ : Fin (2 ^ 128), generate_thread_id r₁ = generate_thread_id r₂ →
        uuid4val r₁.val = uuid4val r₂.val) := by
  constructor
  · intro a r
    exact ⟨rfl, rfl, rfl⟩
  · intro r₁ r₂ h
    have hd := congrArg decodeThreadId h
    rwa [decodeThreadId_generate, decodeThreadId_generate] at hd

theorem start_new_fresh_empty_no_write_witness :
    uuid4val ((⟨0, by norm_num⟩ : Fin (2 ^ 128)) : Fin (2 ^ 128)).val
      = uuid4val (⟨0, by norm_num⟩ : Fin (2 ^ 128)).val :=
  start_new_fresh_empty_no_write.2 ⟨0, by norm_num⟩ ⟨0, by norm_num⟩ rfl

/-- C9: A loaded conversation renders a stored message with role
`"user"` exactly when it is a `HumanMessage`, and with role
`"assistant"` for every other message class. -/
theorem role_assignment_human_user :
    ∀ (s : Session) (tid : String) (ms : List Message),
      (load_conversation s tid (.ok ms)).message_history
        = ms.map (fun m => ⟨roleOf m, m.content⟩) ∧
      ∀ m : Message, (roleOf m = "user" ↔ m.type = .human) ∧
        (m.type ≠ .human → roleOf m = "assistant") := by
  intro s tid ms
  refine ⟨rfl, ?_⟩
  intro m
  cases m with
  | mk t c => cases t <;> simp [roleOf]

theorem role_assignment_human_user_witness :
    roleOf ⟨.system, "be brief"⟩ = "assistant" :=
  ((role_assignment_human_user ⟨[], "t", []⟩ "t" []).2 ⟨.system, "be brief"⟩).2 (by decide)

/-- C10: After a fresh session-state initialization or a chat reset,
the current thread identifier is a member of the in-memory thread
list; and a freshly initialized session over an empty store shows the
list can contain an identifier that the store's enumeration does not
return. -/
theorem thread_id_member_of_thread_list :
    (∀ (raw : RawSession) (fresh : String) (listing : ListOutcome),
        raw.chat_threads = none →
        (initialize_session_state raw fresh listing).thread_id
          ∈ (initialize_session_state raw fresh listing).chat_threads) ∧
    (∀ (s : Session) (fresh : String),
        (reset_chat s fresh).thread_id ∈ (reset_chat s fresh).chat_threads) ∧
    ((initialize_session_state ⟨none, none, none⟩ "t" (.ok [])).thread_id
        ∈ (initialize_session_state ⟨none, none, none⟩ "t" (.ok [])).chat_threads ∧
      (initialize_session_state ⟨none, none, none⟩ "t" (.ok [])).thread_id
        ∉ retrieve_all_threads (.ok [])) := by
  refine ⟨?_, ?_, by decide⟩
  · intro raw fresh listing h
    by_cases hm : (raw.thread_id.getD fresh) ∈ retrieve_all_threads listing <;>
      simp [initialize_session_state, h, hm]
  · intro s fresh
    by_cases hm : fresh ∈ s.chat_threads <;> simp [reset_chat, hm]

theorem thread_id_member_of_thread_list_witness :
    (initialize_session_state ⟨none, none, none⟩ "w" (.ok [])).thread_id
      ∈ (initialize_session_state ⟨none, none, none⟩ "w" (.ok [])).chat_threads :=
  thread_id_member_of_thread_list.1 ⟨none, none, none⟩ "w" (.ok []) rfl

end LangGraphChatbot
